import Mathlib

/-!
Shallow embedding of the finance-openai-stack repository
(`mock_data_loader.py`, `async-disha.py`) in Lean 4, together with
theorems settling the specification claims about it.

Conventions of the embedding:
* Python dict-backed records become Lean structures; dict lookup by key
  becomes association-list lookup returning `Option`.
* JSON numbers that hold balances become `ℚ` (the fixture values are
  exactly representable).
* Python string formatting `f"{x:,.2f}"` is embedded as `formatFixed2`.
* The two OpenAI completion replies of a turn are inputs to
  `process_message` (the completion service is an opaque collaborator).
* `json.dumps` applied to a tool response is embedded as the structured
  response itself (`MsgContent.json`): it is injective on the response
  values, and no claim inspects the serialized text.
* Python exceptions escaping `process_message` become `Except PyError`;
  list appends performed before the exception persist in the state, as
  they do on the mutable Python lists.
-/

/-- One account record of the mock data file (`data["accounts"][acct]`).
Field names follow the keys used by the source. -/
structure AccountRecord where
  pin : String
  balance : ℚ
  currency : String
  account_type : String
  account_holder : String
  account_status : String
  last_transaction : String
deriving DecidableEq, Repr

/-- Account-type metadata (`data["account_types"][code]`); the source reads
every field with `.get`, so each may be absent. -/
structure AccountTypeDetails where
  daily_withdrawal_limit : Option ℚ
  minimum_balance : Option ℚ
  interest_rate : Option ℚ
  monthly_fee : Option ℚ
  term_length : Option String
deriving DecidableEq, Repr

/-- Currency metadata (`data["currencies"][code]`). -/
structure CurrencyDetails where
  symbol : String
deriving DecidableEq, Repr

/-- The loaded mock data (`MockDataLoader.data`): three keyed collections. -/
structure MockData where
  accounts : List (String × AccountRecord)
  account_types : List (String × AccountTypeDetails)
  currencies : List (String × CurrencyDetails)
deriving DecidableEq, Repr

/-- Association-list lookup standing for Python `dict.get(key)`. -/
def alistGet {α : Type} (l : List (String × α)) (k : String) : Option α :=
  (l.find? (fun p => p.1 == k)).map Prod.snd

/-- `MockDataLoader.get_account`: the Python version returns `{}` when the
account is absent; absence is `none` here.  `validate_account_and_pin`
below accounts for the `{}.get("pin") == pin` comparison being `False`. -/
def get_account (d : MockData) (account_number : String) : Option AccountRecord :=
  alistGet d.accounts account_number

/-- `MockDataLoader.get_account_type_details`: an absent type code yields
`{}`, i.e. a record all of whose `.get` reads give `None`. -/
def get_account_type_details (d : MockData) (account_type : String) : AccountTypeDetails :=
  (alistGet d.account_types account_type).getD ⟨none, none, none, none, none⟩

/-- `MockDataLoader.get_currency_details`. -/
def get_currency_details (d : MockData) (currency_code : String) : Option CurrencyDetails :=
  alistGet d.currencies currency_code

/-- `MockDataLoader.validate_account_and_pin`:
`account.get("pin") == pin` where `account` is `{}` when absent, in which
case Python compares `None == pin` (a `str`), i.e. `False`. -/
def validate_account_and_pin (d : MockData) (account_number pin : String) : Bool :=
  match get_account d account_number with
  | none => false
  | some account => account.pin == pin

/-- Insert a comma after every third character, working on the reversed
digit list (helper for the thousands grouping of `"{:,.2f}"`). -/
def group3 : List Char → List Char
  | a :: b :: c :: d :: rest => a :: b :: c :: ',' :: group3 (d :: rest)
  | l => l

/-- Thousands grouping of a digit string, as Python's `","` format flag. -/
def groupThousands (s : String) : String :=
  String.mk ((group3 s.data.reverse).reverse)

/-- Round a rational to the nearest integer, ties to even — the rounding
Python applies when formatting with `".2f"` (the fixture values are exact,
so ties do not actually arise for them). -/
def roundHalfEven (q : ℚ) : ℤ :=
  let f := ⌊q⌋
  let r := q - f
  if r < 1 / 2 then f
  else if 1 / 2 < r then f + 1
  else if f % 2 = 0 then f else f + 1

/-- Two-digit zero-padded rendering of `n < 100`. -/
def twoDigits (n : ℕ) : String :=
  if n < 10 then "0" ++ toString n else toString n

/-- Python `f"{q:,.2f}"`: two decimal places, thousands separators. -/
def formatFixed2 (q : ℚ) : String :=
  let c := roundHalfEven (q * 100)
  let sign := if c < 0 then "-" else ""
  let n := c.natAbs
  sign ++ groupThousands (toString (n / 100)) ++ "." ++ twoDigits (n % 100)

/-- `MockDataLoader.get_formatted_balance`: sentinel string when the
account is absent, else `f"{symbol}{balance:,.2f}"` with the symbol
defaulting to `"$"` when the currency metadata is absent. -/
def get_formatted_balance (d : MockData) (account_number : String) : String :=
  match get_account d account_number with
  | none => "Account not found"
  | some account =>
    let symbol := ((get_currency_details d account.currency).map CurrencyDetails.symbol).getD "$"
    symbol ++ formatFixed2 account.balance

/-- `MockDataLoader.get_account_status`. -/
def get_account_status (d : MockData) (account_number : String) : String :=
  ((get_account d account_number).map AccountRecord.account_status).getD "unknown"

/-- Result shape of `AsyncBankingChatbot.validate_account_number`. -/
structure ValidateAccountResult where
  valid : Bool
  message : String
  account_status : Option String
deriving DecidableEq, Repr

/-- `AsyncBankingChatbot.validate_account_number` (lines 39-46). -/
def validate_account_number (d : MockData) (account_number : String) : ValidateAccountResult :=
  let account := get_account d account_number
  let is_valid := account.isSome
  { valid := is_valid
    message := if is_valid then "Account found" else "Account not found"
    account_status := if is_valid then account.map AccountRecord.account_status else none }

/-- Result shape of `AsyncBankingChatbot.validate_pin`. -/
structure ValidatePinResult where
  valid : Bool
  message : String
deriving DecidableEq, Repr

/-- `AsyncBankingChatbot.validate_pin` (lines 48-53). -/
def validate_pin (d : MockData) (account_number pin : String) : ValidatePinResult :=
  let is_valid := validate_account_and_pin d account_number pin
  { valid := is_valid
    message := if is_valid then "PIN validated" else "Invalid PIN" }

/-- The `"data"` object of a successful `get_account_balance` result; the
`account_features` sub-object reuses `AccountTypeDetails`, whose five
fields are exactly the five `.get` reads the source performs. -/
structure BalanceData where
  balance : ℚ
  currency : String
  account_type : String
  formatted_balance : String
  account_holder : String
  account_status : String
  last_transaction : String
  account_features : AccountTypeDetails
deriving DecidableEq, Repr

/-- Result of `get_account_balance`: a dict with `status` `"error"` and a
message, or `status` `"success"` and a `data` object. -/
inductive BalanceResult where
  | error (message : String)
  | success (data : BalanceData)
deriving DecidableEq, Repr

/-- The `"status"` field of the result dict. -/
def BalanceResult.statusString : BalanceResult → String
  | .error _ => "error"
  | .success _ => "success"

/-- Whether the result dict carries a `"data"` field. -/
def BalanceResult.hasData : BalanceResult → Bool
  | .error _ => false
  | .success _ => true

/-- The `"formatted_balance"` field of the `"data"` object, when present. -/
def BalanceResult.formattedBalance : BalanceResult → Option String
  | .error _ => none
  | .success data => some data.formatted_balance

/-- `AsyncBankingChatbot.get_account_balance` (lines 55-84): the credential
check comes first; only then is the record looked up and exposed. -/
def get_account_balance (d : MockData) (account_number pin : String) : BalanceResult :=
  if !validate_account_and_pin d account_number pin then
    .error "Invalid credentials"
  else
    match get_account d account_number with
    | none => .error "Account not found"
    | some account =>
      let account_type_details := get_account_type_details d account.account_type
      .success
        { balance := account.balance
          currency := account.currency
          account_type := account.account_type
          formatted_balance := get_formatted_balance d account_number
          account_holder := account.account_holder
          account_status := account.account_status
          last_transaction := account.last_transaction
          account_features := account_type_details }

/-- The fixed system prompt of `get_initial_conversation` (lines 19-37),
newlines and indentation as in the Python triple-quoted string. -/
def system_prompt : String :=
  "You are a banking assistant that helps users check their account information. If an user speaks in Bengali, you reply in Bengali. Always reply in Bengali, but never use emojis. And Be concise and succinct.\n                Follow a strict flow:\n                1. Ask for account number first\n                2. Then ask for PIN\n                3. Then provide detailed account information including:\n                   - Current balance with currency symbol\n                   - Account type and its features\n                   - Account status\n                   - Last transaction date\n                   - Account holder name\n                \n                Be professional but friendly. Use the provided functions to validate all information.\n                If an account is frozen, warn the user appropriately."

/-- Message roles. -/
inductive Role where
  | system
  | user
  | assistant
  | tool
deriving DecidableEq, Repr

/-- Parsed `json.loads(tool_call.function.arguments)`: the two keys the
dispatch reads, each possibly absent (an absent key read with `[...]`
raises `KeyError`). -/
structure ToolArgs where
  account_number : Option String
  pin : Option String
deriving DecidableEq, Repr

/-- One tool-call request emitted by the completion service. -/
structure ToolCall where
  id : String
  name : String
  arguments : ToolArgs
deriving DecidableEq, Repr

/-- A tool response value, i.e. the `function_response` dict before
`json.dumps`. -/
inductive ToolResponse where
  | account (r : ValidateAccountResult)
  | pin (r : ValidatePinResult)
  | balance (r : BalanceResult)
deriving DecidableEq, Repr

/-- Message content: plain text, or the `json.dumps` serialization of a
tool response (kept structured: `json.dumps` is injective on these values
and no claim inspects the serialized text). -/
inductive MsgContent where
  | text (s : String)
  | json (r : ToolResponse)
deriving DecidableEq, Repr

/-- One history entry: the dict shape used by the source, with exactly the
keys each append site sets. -/
structure Message where
  role : Role
  content : Option MsgContent
  tool_calls : Option (List ToolCall)
  tool_call_id : Option String
deriving DecidableEq, Repr

/-- `{"role": "system", "content": s}` -/
def systemMsg (s : String) : Message := ⟨.system, some (.text s), none, none⟩

/-- `{"role": "user", "content": s}` (line 92). -/
def userMsg (s : String) : Message := ⟨.user, some (.text s), none, none⟩

/-- `{"role": "assistant", "content": None, "tool_calls": [tool_call]}`
(lines 168-172): the singleton list is what the source builds. -/
def assistantCallMsg (tc : ToolCall) : Message := ⟨.assistant, none, some [tc], none⟩

/-- `{"role": "tool", "tool_call_id": id, "content": json.dumps(r)}`
(lines 173-177). -/
def toolMsg (id : String) (r : ToolResponse) : Message := ⟨.tool, some (.json r), none, some id⟩

/-- `{"role": "assistant", "content": c}` (line 189); `c` is `None` when
the reply had no text. -/
def assistantTextMsg (c : Option String) : Message := ⟨.assistant, c.map .text, none, none⟩

/-- `AsyncBankingChatbot.get_initial_conversation` (lines 19-37). -/
def get_initial_conversation : List Message := [systemMsg system_prompt]

/-- Python exceptions that can escape the tool loop. -/
inductive PyError where
  | unboundLocal
  | keyError (k : String)
deriving DecidableEq, Repr

/-- `function_args[k]`: `KeyError` when the key is absent. -/
def requireArg (v : Option String) (k : String) : Except PyError String :=
  match v with
  | some s => .ok s
  | none => .error (.keyError k)

/-- The `if/elif` dispatch on the requested tool name (lines 154-165).
`none` means the name is outside the closed set of three: the chain has no
`else` branch, so no branch runs and `function_response` is not assigned. -/
def dispatch_tool (d : MockData) (tc : ToolCall) : Option (Except PyError ToolResponse) :=
  if tc.name == "validate_account_number" then
    some (do
      let acct ← requireArg tc.arguments.account_number "account_number"
      return .account (validate_account_number d acct))
  else if tc.name == "validate_pin" then
    some (do
      let acct ← requireArg tc.arguments.account_number "account_number"
      let pin ← requireArg tc.arguments.pin "pin"
      return .pin (validate_pin d acct pin))
  else if tc.name == "get_account_balance" then
    some (do
      let acct ← requireArg tc.arguments.account_number "account_number"
      let pin ← requireArg tc.arguments.pin "pin"
      return .balance (get_account_balance d acct pin))
  else
    none

/-- The per-tool-call loop of `process_message` (lines 149-177).  `last` is
the Python local `function_response`, which persists across iterations of
the `for` loop.  On a recognized name the response is computed, then the
assistant message (singleton `tool_calls`) and the tool message are
appended.  On an unrecognized name nothing is assigned: the assistant
message is still appended (line 168), and then building the tool message
evaluates `json.dumps(function_response)` (line 176), which raises
`UnboundLocalError` when no previous iteration assigned it, and otherwise
silently serializes the previous iteration's response.  A raised exception
ends the loop; appends already made persist, as on the Python list. -/
def run_tool_calls (d : MockData) :
    List ToolCall → List Message → Option ToolResponse → List Message × Option PyError
  | [], hist, _ => (hist, none)
  | tc :: rest, hist, last =>
    match dispatch_tool d tc with
    | some (.error e) => (hist, some e)
    | some (.ok r) =>
      run_tool_calls d rest (hist ++ [assistantCallMsg tc, toolMsg tc.id r]) (some r)
    | none =>
      match last with
      | none => (hist ++ [assistantCallMsg tc], some .unboundLocal)
      | some r =>
        run_tool_calls d rest (hist ++ [assistantCallMsg tc, toolMsg tc.id r]) (some r)

/-- One reply of the completion service: optional text content and the
requested tool calls (`[]` stands for Python `None`/empty, both falsy at
line 147). -/
structure CompletionReply where
  content : Option String
  tool_calls : List ToolCall
deriving DecidableEq, Repr

/-- The chatbot's mutable state: `self.conversations`, a dict from session
id to message history, as an association list in insertion order. -/
structure BotState where
  conversations : List (String × List Message)
deriving DecidableEq, Repr

/-- `self.conversations[sid]` read (`sid in self.conversations` tested via
`Option.isSome`). -/
def lookupConv (s : BotState) (session_id : String) : Option (List Message) :=
  alistGet s.conversations session_id

/-- `self.conversations[sid] = h`: replace the entry in place when the key
exists, else append a new entry (Python dict assignment semantics). -/
def updateAssoc : List (String × List Message) → String → List Message →
    List (String × List Message)
  | [], sid, h => [(sid, h)]
  | p :: rest, sid, h =>
    if p.1 == sid then (sid, h) :: rest else p :: updateAssoc rest sid h

/-- State after `self.conversations[sid] = h`. -/
def setConv (s : BotState) (session_id : String) (h : List Message) : BotState :=
  ⟨updateAssoc s.conversations session_id h⟩

/-- `del self.conversations[sid]` (removes the entry when present). -/
def removeAssoc : List (String × List Message) → String → List (String × List Message)
  | [], _ => []
  | p :: rest, sid =>
    if p.1 == sid then removeAssoc rest sid else p :: removeAssoc rest sid

/-- State after `del self.conversations[sid]` (no-op when absent, matching
the guarded `del` of `end_session`). -/
def deleteConv (s : BotState) (session_id : String) : BotState :=
  ⟨removeAssoc s.conversations session_id⟩

/-- `AsyncBankingChatbot.process_message` (lines 86-191).  The completion
service is an opaque collaborator, so the two replies it may produce in a
turn are inputs: `reply1` for the first call (line 95) and `reply2` for
the follow-up call (line 180), which the source only makes when `reply1`
carries tool calls.  The result is the updated state plus either the
returned text (`content` of the final reply, possibly `None`) or the
escaping Python exception; appends made before an exception persist. -/
def process_message (d : MockData) (s : BotState) (session_id user_input : String)
    (reply1 reply2 : CompletionReply) : BotState × Except PyError (Option String) :=
  let hist0 := (lookupConv s session_id).getD get_initial_conversation
  let hist1 := hist0 ++ [userMsg user_input]
  if reply1.tool_calls.isEmpty then
    (setConv s session_id (hist1 ++ [assistantTextMsg reply1.content]), .ok reply1.content)
  else
    match run_tool_calls d reply1.tool_calls hist1 none with
    | (hist2, some e) => (setConv s session_id hist2, .error e)
    | (hist2, none) =>
      (setConv s session_id (hist2 ++ [assistantTextMsg reply2.content]), .ok reply2.content)

/-- The `DELETE` handler `end_session` (lines 205-209): delete the session
when present and always answer the same confirmation message. -/
def end_session (s : BotState) (session_id : String) : BotState × String :=
  (deleteConv s session_id, "Session ended successfully")

/-- Modelled from the spec: the mock data file `mock_accounts.json` is not
under `src/`, so the account fixtures come from the spec's scenarios —
account `"12345"` with balance 500.0, currency `"USD"` (symbol `"$"`),
status `"active"`, PIN `"0000"`, and an account carrying the
`formatBalance` fixture balance 1234.5.  Fields the spec's scenarios do
not mention are placeholders no claim inspects. -/
def acct12345 : AccountRecord :=
  { pin := "0000", balance := 500, currency := "USD", account_type := "savings",
    account_holder := "Jane Doe", account_status := "active",
    last_transaction := "2024-01-01" }

/-- Modelled from the spec: the account carrying the `formatBalance`
fixture balance 1234.5. -/
def acct67890 : AccountRecord :=
  { pin := "1111", balance := 2469 / 2, currency := "USD", account_type := "savings",
    account_holder := "John Roe", account_status := "active",
    last_transaction := "2024-01-02" }

def fixtureData : MockData :=
  { accounts := [("12345", acct12345), ("67890", acct67890)]
    account_types :=
      [("savings",
        { daily_withdrawal_limit := some 1000, minimum_balance := some 100,
          interest_rate := some 2, monthly_fee := some 0, term_length := none })]
    currencies := [("USD", { symbol := "$" })] }

/-- Interleaving of per-request assistant messages and tool results: the
shape the tool loop appends for requests `tcs` with responses `rs`. -/
def pairSeq : List ToolCall → List ToolResponse → List Message
  | tc :: tcs, r :: rs => assistantCallMsg tc :: toolMsg tc.id r :: pairSeq tcs rs
  | _, _ => []

/-- The response a recognized, well-formed tool call produces, `none` when
the name is unrecognized or a required argument key is missing. -/
def tool_ok (d : MockData) (tc : ToolCall) : Option ToolResponse :=
  match dispatch_tool d tc with
  | some (.ok r) => some r
  | _ => none

/-- The message pairs the loop appends when every call dispatches cleanly. -/
def okPairs (d : MockData) : List ToolCall → List Message
  | [] => []
  | tc :: rest =>
    match tool_ok d tc with
    | some r => assistantCallMsg tc :: toolMsg tc.id r :: okPairs d rest
    | none => []

/-- A recognized `validate_pin` request for the fixture account, used as a
concrete first-round tool call. -/
def callPin : ToolCall :=
  { id := "call_1", name := "validate_pin",
    arguments := { account_number := some "12345", pin := some "0000" } }

/-- A request whose name is outside the closed set of three. -/
def callBogus : ToolCall :=
  { id := "call_2", name := "transfer_funds",
    arguments := { account_number := some "12345", pin := some "0000" } }

/-- A recognized `validate_account_number` request. -/
def callAcct : ToolCall :=
  { id := "call_3", name := "validate_account_number",
    arguments := { account_number := some "12345", pin := none } }

/-- A recognized request carried by a second completion reply. -/
def callSecond : ToolCall :=
  { id := "call_9", name := "validate_pin",
    arguments := { account_number := some "12345", pin := some "0000" } }

/-- Rounding an integer-valued rational is the identity. -/
theorem roundHalfEven_intCast (n : ℤ) : roundHalfEven (n : ℚ) = n := by
  simp [roundHalfEven]

/-- Evaluation rule for `formatFixed2` once the cent value is known as an
integer (Mathlib `ℚ` arithmetic does not reduce in the kernel, so fixture
evaluations go through this rewrite). -/
theorem formatFixed2_cents (q : ℚ) (n : ℤ) (h : q * 100 = (n : ℚ)) :
    formatFixed2 q =
      (if n < 0 then "-" else "") ++ groupThousands (toString (n.natAbs / 100)) ++ "." ++
        twoDigits (n.natAbs % 100) := by
  simp only [formatFixed2, h, roundHalfEven_intCast]

/-- Lookup after a dict assignment at the same key. -/
theorem lookupConv_setConv_self (s : BotState) (sid : String) (h : List Message) :
    lookupConv (setConv s sid h) sid = some h := by
  unfold lookupConv setConv alistGet
  induction s.conversations with
  | nil => simp [updateAssoc]
  | cons p rest ih =>
    by_cases hp : p.1 == sid
    · simp [updateAssoc, hp, List.find?]
    · simpa [updateAssoc, hp, List.find?] using ih

/-- Lookup after a dict deletion at the same key. -/
theorem lookupConv_deleteConv_self (s : BotState) (sid : String) :
    lookupConv (deleteConv s sid) sid = none := by
  unfold lookupConv deleteConv alistGet
  induction s.conversations with
  | nil => simp [removeAssoc]
  | cons p rest ih =>
    by_cases hp : p.1 == sid
    · simpa [removeAssoc, hp] using ih
    · simpa [removeAssoc, hp, List.find?] using ih

/-- Deleting twice is the same as deleting once. -/
theorem removeAssoc_idem (l : List (String × List Message)) (sid : String) :
    removeAssoc (removeAssoc l sid) sid = removeAssoc l sid := by
  induction l with
  | nil => simp [removeAssoc]
  | cons p rest ih =>
    by_cases hp : p.1 == sid
    · simp [removeAssoc, hp, ih]
    · simp [removeAssoc, hp, ih]

/-- When every requested call dispatches cleanly, the loop terminates
without an exception and appends exactly the per-call pairs, in request
order, whatever `function_response` held before. -/
theorem run_tool_calls_all_ok (d : MockData) (tcs : List ToolCall)
    (hok : ∀ tc ∈ tcs, (tool_ok d tc).isSome) (hist : List Message)
    (last : Option ToolResponse) :
    run_tool_calls d tcs hist last = (hist ++ okPairs d tcs, none) := by
  induction tcs generalizing hist last with
  | nil => simp [run_tool_calls, okPairs]
  | cons tc rest ih =>
    have htc : (tool_ok d tc).isSome := hok tc (by simp)
    match hr : tool_ok d tc with
    | none => rw [hr] at htc; simp at htc
    | some r =>
      have hd : dispatch_tool d tc = some (.ok r) := by
        unfold tool_ok at hr
        match hdt : dispatch_tool d tc with
        | none => rw [hdt] at hr; simp at hr
        | some (.error e) => rw [hdt] at hr; simp at hr
        | some (.ok r0) => rw [hdt] at hr; simp at hr; rw [hr]
      simp only [run_tool_calls, hd]
      rw [ih (fun x hx => hok x (by simp [hx]))]
      simp [okPairs, hr]

/-- Whatever the loop does — finish, stale-serialize, or raise — it only
ever appends to the history it was given, and every appended message has
role `assistant` or `tool`. -/
theorem run_tool_calls_append (d : MockData) (tcs : List ToolCall) (hist : List Message)
    (last : Option ToolResponse) :
    ∃ tail, (run_tool_calls d tcs hist last).1 = hist ++ tail ∧
      ∀ m ∈ tail, m.role = Role.assistant ∨ m.role = Role.tool := by
  induction tcs generalizing hist last with
  | nil => exact ⟨[], by simp [run_tool_calls]⟩
  | cons tc rest ih =>
    simp only [run_tool_calls]
    match hd : dispatch_tool d tc with
    | some (.error e) => exact ⟨[], by simp [hd]⟩
    | some (.ok r) =>
      obtain ⟨tail, h1, h2⟩ := ih (hist ++ [assistantCallMsg tc, toolMsg tc.id r]) (some r)
      refine ⟨assistantCallMsg tc :: toolMsg tc.id r :: tail, ?_, ?_⟩
      · simpa using h1
      · intro m hm
        rcases List.mem_cons.mp hm with hm | hm
        · subst hm; left; rfl
        rcases List.mem_cons.mp hm with hm | hm
        · subst hm; right; rfl
        · exact h2 m hm
    | none =>
      match last with
      | none =>
        refine ⟨[assistantCallMsg tc], by simp, ?_⟩
        intro m hm
        simp at hm
        subst hm; left; rfl
      | some r =>
        obtain ⟨tail, h1, h2⟩ := ih (hist ++ [assistantCallMsg tc, toolMsg tc.id r]) (some r)
        refine ⟨assistantCallMsg tc :: toolMsg tc.id r :: tail, ?_, ?_⟩
        · simpa using h1
        · intro m hm
          rcases List.mem_cons.mp hm with hm | hm
          · subst hm; left; rfl
          rcases List.mem_cons.mp hm with hm | hm
          · subst hm; right; rfl
          · exact h2 m hm

/-- A loop run that terminates without an exception appends an exact
alternation of per-request assistant messages and tool results. -/
theorem run_tool_calls_pairSeq (d : MockData) (tcs : List ToolCall) (hist : List Message)
    (last : Option ToolResponse) (h2 : (run_tool_calls d tcs hist last).2 = none) :
    ∃ rs : List ToolResponse, rs.length = tcs.length ∧
      (run_tool_calls d tcs hist last).1 = hist ++ pairSeq tcs rs := by
  induction tcs generalizing hist last with
  | nil => exact ⟨[], by simp [run_tool_calls, pairSeq]⟩
  | cons tc rest ih =>
    simp only [run_tool_calls] at h2 ⊢
    match hd : dispatch_tool d tc with
    | some (.error e) => rw [hd] at h2; simp at h2
    | some (.ok r) =>
      rw [hd] at h2
      obtain ⟨rs, hlen, hh⟩ := ih (hist ++ [assistantCallMsg tc, toolMsg tc.id r]) (some r) h2
      exact ⟨r :: rs, by simp [hlen], by simpa [pairSeq] using hh⟩
    | none =>
      rw [hd] at h2
      match last with
      | none => simp at h2
      | some r =>
        obtain ⟨rs, hlen, hh⟩ := ih (hist ++ [assistantCallMsg tc, toolMsg tc.id r]) (some r) h2
        exact ⟨r :: rs, by simp [hlen], by simpa [pairSeq] using hh⟩

/-- C5: `validate_account_and_pin` returns `true` if and only if an
account record exists for the account number and its stored PIN equals the
supplied pin exactly (string equality); every other input — including a
nonexistent account number — gives `false`. -/
theorem C5_validate_credentials_iff (d : MockData) (acct pin : String) :
    validate_account_and_pin d acct pin = true ↔
      ∃ a, get_account d acct = some a ∧ a.pin = pin := by
  unfold validate_account_and_pin
  match h : get_account d acct with
  | none => simp
  | some a => simp [beq_iff_eq]

/-- C9: session deletion always succeeds and is idempotent: the handler
always answers the same success confirmation (also for an identifier with
no session), removes the session when present, and repeating the deletion
changes nothing, so every sequence of repeated deletions of one identifier
behaves like the first. -/
theorem C9_end_session_idempotent (s : BotState) (sid : String) :
    (end_session s sid).2 = "Session ended successfully" ∧
      lookupConv (end_session s sid).1 sid = none ∧
      end_session (end_session s sid).1 sid = end_session s sid := by
  refine ⟨rfl, lookupConv_deleteConv_self s sid, ?_⟩
  unfold end_session deleteConv
  simp [removeAssoc_idem]

/-- C8: `get_formatted_balance` returns the fixed sentinel when the
account is absent, and otherwise the currency symbol concatenated with the
balance formatted to two decimal places with thousands separators; on the
spec's fixture (balance 1234.5, currency USD, symbol `"$"`) it returns
exactly `"$1,234.50"`. -/
theorem C8_format_balance (d : MockData) (acct : String) :
    (get_account d acct = none → get_formatted_balance d acct = "Account not found") ∧
    (∀ a, get_account d acct = some a →
      get_formatted_balance d acct =
        ((get_currency_details d a.currency).map CurrencyDetails.symbol).getD "$" ++
          formatFixed2 a.balance) ∧
    get_formatted_balance fixtureData "67890" = "$1,234.50" := by
  refine ⟨?_, ?_, ?_⟩
  · intro h
    unfold get_formatted_balance
    rw [h]
  · intro a h
    unfold get_formatted_balance
    rw [h]
  · have hb : acct67890.balance * 100 = ((123450 : ℤ) : ℚ) := by
      show (2469 / 2 : ℚ) * 100 = ((123450 : ℤ) : ℚ)
      norm_num
    have hmain : get_formatted_balance fixtureData "67890" =
        "$" ++ formatFixed2 acct67890.balance := rfl
    rw [hmain, formatFixed2_cents acct67890.balance 123450 hb]
    decide

/-- C8 witness: the sentinel branch at a concrete absent account. -/
theorem C8_format_balance_witness :
    get_formatted_balance fixtureData "00000" = "Account not found" :=
  (C8_format_balance fixtureData "00000").1 rfl

/-- C6: the credential check of `get_account_balance` precedes the record
lookup — every call with credentials that do not validate returns the
`"error"`-status result with no `data` field, whatever the account number —
and on the spec's fixture account `"12345"` (balance 500.0, USD `"$"`,
PIN `"0000"`) the call with PIN `"0000"` returns status `"success"` with
`formatted_balance` `"$500.00"` while the call with PIN `"9999"` returns
the `"error"` result. -/
theorem C6_get_account_balance :
    (∀ d acct pin, validate_account_and_pin d acct pin = false →
      get_account_balance d acct pin = .error "Invalid credentials" ∧
        (get_account_balance d acct pin).hasData = false) ∧
    (get_account_balance fixtureData "12345" "0000").statusString = "success" ∧
    (get_account_balance fixtureData "12345" "0000").formattedBalance = some "$500.00" ∧
    get_account_balance fixtureData "12345" "9999" = .error "Invalid credentials" ∧
    (get_account_balance fixtureData "12345" "9999").hasData = false := by
  have herr : ∀ d acct pin, validate_account_and_pin d acct pin = false →
      get_account_balance d acct pin = .error "Invalid credentials" := by
    intro d acct pin h
    unfold get_account_balance
    rw [h]
    rfl
  have hval : validate_account_and_pin fixtureData "12345" "0000" = true := rfl
  have hacc : get_account fixtureData "12345" = some acct12345 := rfl
  have hfb : get_formatted_balance fixtureData "12345" = "$500.00" := by
    have hb : acct12345.balance * 100 = ((50000 : ℤ) : ℚ) := by
      show (500 : ℚ) * 100 = ((50000 : ℤ) : ℚ)
      norm_num
    have hmain : get_formatted_balance fixtureData "12345" =
        "$" ++ formatFixed2 acct12345.balance := rfl
    rw [hmain, formatFixed2_cents acct12345.balance 50000 hb]
    decide
  have hsucc : ∃ data, get_account_balance fixtureData "12345" "0000" = .success data ∧
      data.formatted_balance = get_formatted_balance fixtureData "12345" := by
    unfold get_account_balance
    rw [hval, hacc]
    exact ⟨_, rfl, rfl⟩
  obtain ⟨data, hd, hdf⟩ := hsucc
  have h9 : validate_account_and_pin fixtureData "12345" "9999" = false := rfl
  refine ⟨fun d acct pin h => ⟨herr d acct pin h, by rw [herr d acct pin h]; rfl⟩, ?_, ?_, ?_, ?_⟩
  · rw [hd]; rfl
  · rw [hd]
    show some data.formatted_balance = some "$500.00"
    rw [hdf, hfb]
  · exact herr fixtureData "12345" "9999" h9
  · rw [herr fixtureData "12345" "9999" h9]; rfl

/-- C6 witness: the universally quantified error clause applied at a
concrete non-matching PIN. -/
theorem C6_get_account_balance_witness :
    get_account_balance fixtureData "99999" "1234" = .error "Invalid credentials" ∧
      (get_account_balance fixtureData "99999" "1234").hasData = false :=
  C6_get_account_balance.1 fixtureData "99999" "1234" rfl

/-- Reduction of `process_message` when the first reply carries tool
calls, split over the loop outcome. -/
theorem process_message_run (d : MockData) (s : BotState) (sid inp : String)
    (r1 r2 : CompletionReply) (hne : r1.tool_calls ≠ []) :
    process_message d s sid inp r1 r2 =
      (match run_tool_calls d r1.tool_calls
          (((lookupConv s sid).getD get_initial_conversation) ++ [userMsg inp]) none with
       | (hist2, some e) => (setConv s sid hist2, .error e)
       | (hist2, none) =>
         (setConv s sid (hist2 ++ [assistantTextMsg r2.content]), .ok r2.content)) := by
  unfold process_message
  have he : r1.tool_calls.isEmpty = false := by
    cases h : r1.tool_calls with
    | nil => exact absurd h hne
    | cons a l => rfl
  rw [he]
  simp

/-- Reduction of `process_message` when the first reply carries no tool
calls. -/
theorem process_message_no_tools (d : MockData) (s : BotState) (sid inp : String)
    (r1 r2 : CompletionReply) (he : r1.tool_calls = []) :
    process_message d s sid inp r1 r2 =
      (setConv s sid ((((lookupConv s sid).getD get_initial_conversation) ++ [userMsg inp]) ++
          [assistantTextMsg r1.content]),
       .ok r1.content) := by
  unfold process_message
  rw [he]
  simp

/-- Full reduction of a turn all of whose requested tool calls dispatch
cleanly. -/
theorem process_message_all_ok (d : MockData) (s : BotState) (sid inp : String)
    (r1 r2 : CompletionReply) (hok : ∀ tc ∈ r1.tool_calls, (tool_ok d tc).isSome)
    (hne : r1.tool_calls ≠ []) :
    process_message d s sid inp r1 r2 =
      (setConv s sid ((((lookupConv s sid).getD get_initial_conversation) ++ [userMsg inp]) ++
          (okPairs d r1.tool_calls ++ [assistantTextMsg r2.content])),
       .ok r2.content) := by
  rw [process_message_run d s sid inp r1 r2 hne,
      run_tool_calls_all_ok d r1.tool_calls hok _ none]
  simp [List.append_assoc]

/-- The positions of the pair appended for the `i`-th request, when every
request dispatches cleanly: the assistant message carrying the request
sits at index `2 i` of the appended block, and the tool result correlated
to that request's identifier sits directly after it at `2 i + 1`. -/
theorem okPairs_get_pair (d : MockData) (tcs : List ToolCall)
    (hok : ∀ tc ∈ tcs, (tool_ok d tc).isSome) (i : ℕ) (hi : i < tcs.length) :
    ∃ r, tool_ok d (tcs.get ⟨i, hi⟩) = some r ∧
      (okPairs d tcs).get? (2 * i) = some (assistantCallMsg (tcs.get ⟨i, hi⟩)) ∧
      (okPairs d tcs).get? (2 * i + 1) = some (toolMsg (tcs.get ⟨i, hi⟩).id r) := by
  induction tcs generalizing i with
  | nil => exact absurd hi (by simp)
  | cons tc rest ih =>
    have htc : (tool_ok d tc).isSome := hok tc (by simp)
    match hr : tool_ok d tc with
    | none => rw [hr] at htc; simp at htc
    | some r =>
      cases i with
      | zero => exact ⟨r, hr, by simp [okPairs, hr], by simp [okPairs, hr]⟩
      | succ i =>
        have hi2 : i < rest.length := by simpa [Nat.succ_lt_succ_iff] using hi
        obtain ⟨r2, hr2, hg1, hg2⟩ := ih (fun x hx => hok x (by simp [hx])) i hi2
        refine ⟨r2, by simpa using hr2, ?_, ?_⟩
        · have : 2 * (i + 1) = (2 * i) + 2 := by ring
          rw [this]
          simpa [okPairs, hr] using hg1
        · have : 2 * (i + 1) + 1 = (2 * i + 1) + 2 := by ring
          rw [this]
          simpa [okPairs, hr] using hg2

/-- Whatever the completion service replies and however dispatch goes, a
turn only appends to the stored history (seeding it first when the session
is new), and none of the appended messages has the system role. -/
theorem process_message_appends (d : MockData) (s : BotState) (sid inp : String)
    (r1 r2 : CompletionReply) :
    ∃ tail, lookupConv (process_message d s sid inp r1 r2).1 sid =
        some ((((lookupConv s sid).getD get_initial_conversation)) ++ tail) ∧
      ∀ m ∈ tail, m.role ≠ Role.system := by
  by_cases he : r1.tool_calls = []
  · rw [process_message_no_tools d s sid inp r1 r2 he]
    refine ⟨[userMsg inp, assistantTextMsg r1.content], ?_, ?_⟩
    · rw [lookupConv_setConv_self]
      simp
    · intro m hm
      rcases List.mem_cons.mp hm with hm | hm
      · subst hm; simp [userMsg]
      rcases List.mem_cons.mp hm with hm | hm
      · subst hm; simp [assistantTextMsg]
      · exact absurd hm (by simp)
  · rw [process_message_run d s sid inp r1 r2 he]
    obtain ⟨tail, h1, h2⟩ := run_tool_calls_append d r1.tool_calls
      (((lookupConv s sid).getD get_initial_conversation) ++ [userMsg inp]) none
    have hrole : ∀ m ∈ tail, m.role ≠ Role.system := by
      intro m hm
      rcases h2 m hm with h | h <;> simp [h]
    match hrun : run_tool_calls d r1.tool_calls
        (((lookupConv s sid).getD get_initial_conversation) ++ [userMsg inp]) none with
    | (hist2, some e) =>
      have hh : hist2 = (((lookupConv s sid).getD get_initial_conversation) ++ [userMsg inp]) ++ tail := by
        rw [hrun] at h1
        exact h1
      refine ⟨userMsg inp :: tail, ?_, ?_⟩
      · rw [lookupConv_setConv_self, hh]
        simp
      · intro m hm
        rcases List.mem_cons.mp hm with hm | hm
        · subst hm; simp [userMsg]
        · exact hrole m hm
    | (hist2, none) =>
      have hh : hist2 = (((lookupConv s sid).getD get_initial_conversation) ++ [userMsg inp]) ++ tail := by
        rw [hrun] at h1
        exact h1
      refine ⟨userMsg inp :: (tail ++ [assistantTextMsg r2.content]), ?_, ?_⟩
      · rw [lookupConv_setConv_self, hh]
        simp
      · intro m hm
        rcases List.mem_cons.mp hm with hm | hm
        · subst hm; simp [userMsg]
        rcases List.mem_append.mp hm with hm | hm
        · exact hrole m hm
        · rcases List.mem_singleton.mp hm with rfl
          simp [assistantTextMsg]

/-- C7: a freshly created history starts with the single fixed system
message and no turn ever appends another system message; deleting a
session and then sending a message under the same identifier yields a
fresh history seeded only with that system message, with no residue of
messages from before the deletion. -/
theorem C7_system_message_seeding (d : MockData) (s : BotState) (sid inp : String)
    (r1 r2 : CompletionReply) :
    (lookupConv s sid = none →
      ∃ tail, lookupConv (process_message d s sid inp r1 r2).1 sid =
          some (get_initial_conversation ++ tail) ∧ ∀ m ∈ tail, m.role ≠ Role.system) ∧
    (∀ h0, lookupConv s sid = some h0 →
      ∃ tail, lookupConv (process_message d s sid inp r1 r2).1 sid =
          some (h0 ++ tail) ∧ ∀ m ∈ tail, m.role ≠ Role.system) ∧
    (∃ tail, lookupConv (process_message d (end_session s sid).1 sid inp r1 r2).1 sid =
        some (get_initial_conversation ++ tail) ∧ ∀ m ∈ tail, m.role ≠ Role.system) := by
  refine ⟨?_, ?_, ?_⟩
  · intro h
    obtain ⟨tail, h1, h2⟩ := process_message_appends d s sid inp r1 r2
    rw [h] at h1
    exact ⟨tail, by simpa using h1, h2⟩
  · intro h0 h
    obtain ⟨tail, h1, h2⟩ := process_message_appends d s sid inp r1 r2
    rw [h] at h1
    exact ⟨tail, by simpa using h1, h2⟩
  · obtain ⟨tail, h1, h2⟩ := process_message_appends d (end_session s sid).1 sid inp r1 r2
    have hdel : lookupConv (end_session s sid).1 sid = none := lookupConv_deleteConv_self s sid
    rw [hdel] at h1
    exact ⟨tail, by simpa using h1, h2⟩

/-- C7 witness: a fresh session on the empty state. -/
theorem C7_system_message_seeding_witness :
    ∃ tail, lookupConv (process_message fixtureData ⟨[]⟩ "s7" "hello"
        ⟨some "hi", []⟩ ⟨none, []⟩).1 "s7" =
      some (get_initial_conversation ++ tail) ∧ ∀ m ∈ tail, m.role ≠ Role.system :=
  (C7_system_message_seeding fixtureData ⟨[]⟩ "s7" "hello" ⟨some "hi", []⟩ ⟨none, []⟩).1 rfl

/-- C10: a turn that completes without error leaves the session history
equal to its previous content (seeded when new) followed by exactly: the
user message, one assistant-request/tool-result pair per requested tool
call of the first reply (none when it carried no tool calls), and one
final assistant message whose content is exactly the value the call
returns — nothing else is appended and nothing already stored changes. -/
theorem C10_turn_history_shape (d : MockData) (s : BotState) (sid inp : String)
    (r1 r2 : CompletionReply) (ret : Option String)
    (h : (process_message d s sid inp r1 r2).2 = Except.ok ret) :
    ∃ rs : List ToolResponse, rs.length = r1.tool_calls.length ∧
      lookupConv (process_message d s sid inp r1 r2).1 sid =
        some ((((lookupConv s sid).getD get_initial_conversation) ++ [userMsg inp]) ++
          (pairSeq r1.tool_calls rs ++ [assistantTextMsg ret])) := by
  by_cases he : r1.tool_calls = []
  · have hred := process_message_no_tools d s sid inp r1 r2 he
    rw [hred] at h ⊢
    have hret : r1.content = ret := by
      simpa using h
    refine ⟨[], by simp [he], ?_⟩
    rw [lookupConv_setConv_self, he, hret]
    simp [pairSeq]
  · have hred := process_message_run d s sid inp r1 r2 he
    rw [hred] at h ⊢
    match hrun : run_tool_calls d r1.tool_calls
        (((lookupConv s sid).getD get_initial_conversation) ++ [userMsg inp]) none with
    | (hist2, some e) =>
      rw [hrun] at h
      simp at h
    | (hist2, none) =>
      rw [hrun] at h
      have hret : r2.content = ret := by
        simpa using h
      obtain ⟨rs, hlen, hh⟩ := run_tool_calls_pairSeq d r1.tool_calls
        (((lookupConv s sid).getD get_initial_conversation) ++ [userMsg inp]) none
        (by rw [hrun])
      rw [hrun] at hh
      simp only at hh
      refine ⟨rs, hlen, ?_⟩
      show lookupConv (setConv s sid (hist2 ++ [assistantTextMsg r2.content])) sid = _
      rw [lookupConv_setConv_self, hh, hret]
      simp [List.append_assoc]

/-- C10 witness: a turn with one recognized tool call on the empty state. -/
theorem C10_turn_history_shape_witness :
    ∃ rs : List ToolResponse,
      rs.length = (CompletionReply.mk none [callPin]).tool_calls.length ∧
      lookupConv (process_message fixtureData ⟨[]⟩ "s10" "hello"
          ⟨none, [callPin]⟩ ⟨some "done", []⟩).1 "s10" =
        some ((((lookupConv (⟨[]⟩ : BotState) "s10").getD get_initial_conversation) ++
            [userMsg "hello"]) ++
          (pairSeq (CompletionReply.mk none [callPin]).tool_calls rs ++
            [assistantTextMsg (some "done")])) :=
  C10_turn_history_shape fixtureData ⟨[]⟩ "s10" "hello" ⟨none, [callPin]⟩
    ⟨some "done", []⟩ (some "done") rfl

/-- C3: for a turn whose first reply requests tool calls (each of which
dispatches cleanly), the final history puts the follow-up assistant
message after every appended pair — so all tool results are in history
before the continuation reply is recorded — and within the appended block
the assistant message carrying request `i` sits at index `2 i`,
immediately followed at `2 i + 1` by the tool message correlated to that
request's own identifier, i.e. the results appear in exact request order;
the loop (`run_tool_calls`) is a strictly sequential fold, executing and
appending result `i` before request `i + 1` is dispatched. -/
theorem C3_tool_result_ordering (d : MockData) (s : BotState) (sid inp : String)
    (r1 r2 : CompletionReply) (hok : ∀ tc ∈ r1.tool_calls, (tool_ok d tc).isSome)
    (hne : r1.tool_calls ≠ []) :
    lookupConv (process_message d s sid inp r1 r2).1 sid =
      some ((((lookupConv s sid).getD get_initial_conversation) ++ [userMsg inp]) ++
        (okPairs d r1.tool_calls ++ [assistantTextMsg r2.content])) ∧
    ∀ i, ∀ hi : i < r1.tool_calls.length,
      ∃ r, tool_ok d (r1.tool_calls.get ⟨i, hi⟩) = some r ∧
        (okPairs d r1.tool_calls).get? (2 * i) =
          some (assistantCallMsg (r1.tool_calls.get ⟨i, hi⟩)) ∧
        (okPairs d r1.tool_calls).get? (2 * i + 1) =
          some (toolMsg (r1.tool_calls.get ⟨i, hi⟩).id r) := by
  refine ⟨?_, fun i hi => okPairs_get_pair d r1.tool_calls hok i hi⟩
  rw [process_message_all_ok d s sid inp r1 r2 hok hne]
  exact lookupConv_setConv_self s sid _

/-- C3 witness: a concrete two-call turn on the empty state. -/
theorem C3_tool_result_ordering_witness :
    lookupConv (process_message fixtureData ⟨[]⟩ "s3" "hi"
        ⟨none, [callPin, callAcct]⟩ ⟨some "done", []⟩).1 "s3" =
      some ((((lookupConv (⟨[]⟩ : BotState) "s3").getD get_initial_conversation) ++
          [userMsg "hi"]) ++
        (okPairs fixtureData (CompletionReply.mk none [callPin, callAcct]).tool_calls ++
          [assistantTextMsg (some "done")])) :=
  (C3_tool_result_ordering fixtureData ⟨[]⟩ "s3" "hi" ⟨none, [callPin, callAcct]⟩
    ⟨some "done", []⟩ (by decide) (by decide)).1

/-- C2 counterexample: a first reply requesting the two tool calls
`[callPin, callAcct]` makes the turn append two assistant messages
carrying tool-call lists, and no message in the final history carries the
original two-element request list verbatim — refuting the claimed single
assistant message with the verbatim list. -/
theorem C2_counterexample :
    (((lookupConv (process_message fixtureData ⟨[]⟩ "s2" "hi"
          ⟨none, [callPin, callAcct]⟩ ⟨some "done", []⟩).1 "s2").getD []).filter
        (fun m => m.tool_calls.isSome)).length = 2 ∧
    ((lookupConv (process_message fixtureData ⟨[]⟩ "s2" "hi"
          ⟨none, [callPin, callAcct]⟩ ⟨some "done", []⟩).1 "s2").getD []).all
        (fun m => m.tool_calls != some [callPin, callAcct]) = true := by
  decide

/-- C2 amended: when the first reply carries tool-call requests (each
dispatching cleanly), the engine appends, before each request's tool
result, an assistant message whose tool-call list is the singleton list
holding just that request and whose content is null — one such message
per request rather than a single one with the whole list; when the reply
carries exactly one request this is a single assistant message whose
tool-call list is the original request list verbatim, appended before the
tool result message. -/
theorem C2_per_request_assistant (d : MockData) (s : BotState) (sid inp : String)
    (r1 r2 : CompletionReply) (hok : ∀ tc ∈ r1.tool_calls, (tool_ok d tc).isSome)
    (hne : r1.tool_calls ≠ []) :
    lookupConv (process_message d s sid inp r1 r2).1 sid =
      some ((((lookupConv s sid).getD get_initial_conversation) ++ [userMsg inp]) ++
        (okPairs d r1.tool_calls ++ [assistantTextMsg r2.content])) ∧
    (∀ i, ∀ hi : i < r1.tool_calls.length,
      (okPairs d r1.tool_calls).get? (2 * i) =
        some ⟨Role.assistant, none, some [r1.tool_calls.get ⟨i, hi⟩], none⟩) ∧
    (∀ tc, r1.tool_calls = [tc] →
      ∃ r, tool_ok d tc = some r ∧
        okPairs d r1.tool_calls =
          [⟨Role.assistant, none, some [tc], none⟩, toolMsg tc.id r]) := by
  refine ⟨?_, ?_, ?_⟩
  · rw [process_message_all_ok d s sid inp r1 r2 hok hne]
    exact lookupConv_setConv_self s sid _
  · intro i hi
    obtain ⟨r, _, hg, _⟩ := okPairs_get_pair d r1.tool_calls hok i hi
    exact hg
  · intro tc htc
    have htok : (tool_ok d tc).isSome := hok tc (by simp [htc])
    match hr : tool_ok d tc with
    | none => rw [hr] at htok; simp at htok
    | some r =>
      refine ⟨r, rfl, ?_⟩
      rw [htc]
      simp [okPairs, hr, assistantCallMsg]

/-- C2 amended witness: the single-request case at a concrete input. -/
theorem C2_per_request_assistant_witness :
    lookupConv (process_message fixtureData ⟨[]⟩ "s2b" "hi"
        ⟨none, [callAcct]⟩ ⟨some "done", []⟩).1 "s2b" =
      some ((((lookupConv (⟨[]⟩ : BotState) "s2b").getD get_initial_conversation) ++
          [userMsg "hi"]) ++
        (okPairs fixtureData (CompletionReply.mk none [callAcct]).tool_calls ++
          [assistantTextMsg (some "done")])) :=
  (C2_per_request_assistant fixtureData ⟨[]⟩ "s2b" "hi" ⟨none, [callAcct]⟩
    ⟨some "done", []⟩ (by decide) (by decide)).1

/-- C4 counterexample: with a second reply that again requests a tool call
(`callSecond`, id `"call_9"`), the turn completes without error,
returning the second reply's null content, and the final history holds no
tool message correlated to that identifier — the engine ends the turn
leaving the second round's request unexecuted and unreported, performing
neither another execution iteration nor a protocol error. -/
theorem C4_counterexample :
    (process_message fixtureData ⟨[]⟩ "s4" "hi" ⟨none, [callPin]⟩
        ⟨none, [callSecond]⟩).2 = Except.ok none ∧
    ((lookupConv (process_message fixtureData ⟨[]⟩ "s4" "hi" ⟨none, [callPin]⟩
        ⟨none, [callSecond]⟩).1 "s4").getD []).all
      (fun m => m.tool_call_id != some "call_9") = true :=
  ⟨rfl, by decide⟩

/-- C4 amended: tool calls requested by the second completion reply are
ignored entirely: after the first round's pairs the engine appends exactly
one final assistant message carrying the second reply's text content and
returns that content without error, executing none of the second round's
requested calls. -/
theorem C4_second_round_ignored (d : MockData) (s : BotState) (sid inp : String)
    (r1 r2 : CompletionReply) (hok : ∀ tc ∈ r1.tool_calls, (tool_ok d tc).isSome)
    (hne : r1.tool_calls ≠ []) (_hr2 : r2.tool_calls ≠ []) :
    (process_message d s sid inp r1 r2).2 = Except.ok r2.content ∧
    lookupConv (process_message d s sid inp r1 r2).1 sid =
      some ((((lookupConv s sid).getD get_initial_conversation) ++ [userMsg inp]) ++
        (okPairs d r1.tool_calls ++ [assistantTextMsg r2.content])) := by
  rw [process_message_all_ok d s sid inp r1 r2 hok hne]
  exact ⟨rfl, lookupConv_setConv_self s sid _⟩

/-- C4 amended witness: concrete run whose second reply requests a call. -/
theorem C4_second_round_ignored_witness :
    (process_message fixtureData ⟨[]⟩ "s4b" "hi" ⟨none, [callPin]⟩
        ⟨none, [callSecond]⟩).2 = Except.ok none ∧
    lookupConv (process_message fixtureData ⟨[]⟩ "s4b" "hi" ⟨none, [callPin]⟩
        ⟨none, [callSecond]⟩).1 "s4b" =
      some ((((lookupConv (⟨[]⟩ : BotState) "s4b").getD get_initial_conversation) ++
          [userMsg "hi"]) ++
        (okPairs fixtureData (CompletionReply.mk none [callPin]).tool_calls ++
          [assistantTextMsg none])) :=
  C4_second_round_ignored fixtureData ⟨[]⟩ "s4b" "hi" ⟨none, [callPin]⟩
    ⟨none, [callSecond]⟩ (by decide) (by decide) (by decide)

/-- C1 (the failing behavior, at concrete inputs): the closed `if/elif`
dispatch has no rejection branch.  When the unrecognized request
`callBogus` arrives after the recognized `callPin`, the turn completes
without any failure and the tool message correlated to `callBogus`'s
identifier (`"call_2"`) carries the serialized response of the previous
request — a result not produced by executing `callBogus`.  When
`callBogus` is the first request, the turn aborts with
`UnboundLocalError` (an accidental crash, not a surfaced protocol
error), leaving a dangling assistant message without its tool result. -/
theorem C1_unknown_tool_fallthrough :
    (process_message fixtureData ⟨[]⟩ "s1" "hi"
        ⟨none, [callPin, callBogus]⟩ ⟨some "done", []⟩).2 = Except.ok (some "done") ∧
    (toolMsg "call_2" (.pin (validate_pin fixtureData "12345" "0000")) ∈
      (lookupConv (process_message fixtureData ⟨[]⟩ "s1" "hi"
          ⟨none, [callPin, callBogus]⟩ ⟨some "done", []⟩).1 "s1").getD []) ∧
    (process_message fixtureData ⟨[]⟩ "s1b" "hi"
        ⟨none, [callBogus]⟩ ⟨some "done", []⟩).2 = Except.error PyError.unboundLocal :=
  ⟨rfl, by decide, rfl⟩
